import Mathlib

/-!
# Button-to-LED event pipeline (FreeRTOS, RP2040): `exe4` and `exe5`

Shallow embedding of the two programs `src/exe4/main.c` (variant A: each
button press sends the next blink period through a queue) and
`src/exe5/main.c` (variant B: each button press toggles a fixed-rate blink
through a queue, a dispatch task and a binary semaphore).

Modelling conventions.

* C `int` values are `Int`.  The only arithmetic is `v += 100` under the
  guard `v < 1000`, which cannot leave the range of a 32-bit `int`.
  `uint`, `uint32_t` and `uint8_t` values are `Nat`.
* A FreeRTOS queue is its capacity together with the list of pending items,
  oldest first.  A binary semaphore is a `Bool` (`true` = available).
* The interrupt handler and the task loops are state transformers.  One call
  of a `*_iter` function is one pass through the body of the `for (;;)` loop
  of the task.  A blocking receive is decided by the queue contents at the
  moment of the call: an item is there and is returned at once, or the queue
  is empty, stays empty, and the call times out.
* Every `gpio_put` and every blocking wait is appended to a trace
  (`Ev.put pin value`, `Ev.block ms`), so that what was written to a pin, in
  which order, and with which nominal waits in between can be read back.
* `GPIO_IRQ_EDGE_FALL` is a macro of the Pico SDK and is not defined in the
  repository; it is a parameter of both `btn_callback`s.
-/

/-! ## FreeRTOS primitives used by both programs -/

/-- A FreeRTOS queue: `uxLength` is the capacity fixed by `xQueueCreate`,
`items` the pending messages, oldest first. -/
structure Queue (α : Type) where
  uxLength : Nat
  items : List α
deriving DecidableEq

/-- The queue made by `xQueueCreate(uxQueueLength, _)`: empty, with the given capacity. -/
def xQueueCreate {α : Type} (uxQueueLength : Nat) : Queue α :=
  { uxLength := uxQueueLength, items := [] }

/-- The non-blocking send `xQueueSendFromISR(q, &item, _)`: posts to the back of
the queue and returns `pdTRUE` when there is room; returns `errQUEUE_FULL`
(`false`) and leaves the queue alone when it is full. -/
def xQueueSendFromISR {α : Type} (q : Queue α) (item : α) : Bool × Queue α :=
  if q.items.length < q.uxLength then (true, { q with items := q.items ++ [item] })
  else (false, q)

/-- The receive `xQueueReceive(q, &buf, timeout)`: the oldest item and the rest of the
queue, or `none` (the call timed out, `pdFALSE`) with the queue as it was. -/
def xQueueReceive {α : Type} (q : Queue α) : Option α × Queue α :=
  match q.items with
  | [] => (none, q)
  | x :: rest => (some x, { q with items := rest })

/-- The give `xSemaphoreGive(sem)` on a binary semaphore: it is available afterwards,
whatever it was before. -/
def xSemaphoreGive (_sem : Bool) : Bool := true

/-- What a task does to the outside world: drive a pin, or block for a nominal
number of milliseconds (a `vTaskDelay`, or a receive/take that timed out). -/
inductive Ev where
  | put (pin : Nat) (value : Bool)
  | block (ms : Int)
deriving DecidableEq

/-- The times at which `pin` goes from low to high along a trace, given the level
`lvl` of the pin and the time `now` at the start of the trace. -/
def risingEdges (pin : Nat) : List Ev → Bool → Int → List Int
  | [], _, _ => []
  | Ev.block ms :: es, lvl, now => risingEdges pin es lvl (now + ms)
  | Ev.put p v :: es, lvl, now =>
    if p = pin then
      if !lvl && v then now :: risingEdges pin es v now else risingEdges pin es v now
    else risingEdges pin es lvl now

/-- The times at which `pin` goes from high to low along a trace. -/
def fallingEdges (pin : Nat) : List Ev → Bool → Int → List Int
  | [], _, _ => []
  | Ev.block ms :: es, lvl, now => fallingEdges pin es lvl (now + ms)
  | Ev.put p v :: es, lvl, now =>
    if p = pin then
      if lvl && !v then now :: fallingEdges pin es v now else fallingEdges pin es v now
    else fallingEdges pin es lvl now

/-- The differences between consecutive entries of a list of times. -/
def gaps : List Int → List Int
  | a :: b :: rest => (b - a) :: gaps (b :: rest)
  | _ => []

/-! ## Variant A: `src/exe4/main.c` -/

namespace Exe4

def BTN_PIN_R : Nat := 28
def BTN_PIN_G : Nat := 26

def LED_PIN_R : Nat := 4
def LED_PIN_G : Nat := 6

/-- The globals of `exe4`: the two ramp counters written by the interrupt handler
and the two queues. -/
structure State where
  next_delay_r : Int
  next_delay_g : Int
  xQueueButId : Queue Int
  xQueueBtn2 : Queue Int
deriving DecidableEq

/-- The function `bump_delay(d)`: the first component is the value stored back
through the pointer, the second the value returned. -/
def bump_delay (d : Int) : Int × Int :=
  let v := if d < 1000 then d + 100 else 100
  (v, v)

/-- The interrupt handler `btn_callback( gpio, events)`.  The return value of
`xQueueSendFromISR` is not looked at, and `portYIELD_FROM_ISR` only asks for a
context switch. -/
def btn_callback (GPIO_IRQ_EDGE_FALL : Nat) (s : State) ( gpio events : Nat) : State :=
  if events &&& GPIO_IRQ_EDGE_FALL = 0 then s
  else if gpio = BTN_PIN_R then
    let r := bump_delay s.next_delay_r
    { s with next_delay_r := r.1, xQueueButId := (xQueueSendFromISR s.xQueueButId r.2).2 }
  else if gpio = BTN_PIN_G then
    let r := bump_delay s.next_delay_g
    { s with next_delay_g := r.1, xQueueBtn2 := (xQueueSendFromISR s.xQueueBtn2 r.2).2 }
  else s

/-- The locals of one LED task together with the trace of what it did. -/
structure LedTask where
  delay_ms : Int
  trace : List Ev
deriving DecidableEq

/-- The state of an LED task when it enters its loop: `delay_ms = 0`, nothing done yet. -/
def LedTask.start : LedTask := { delay_ms := 0, trace := [] }

/-- One pass through the loop of `led_task_red`.  The `printf` is not modelled. -/
def led_task_red_iter (s : State) (t : LedTask) : State × LedTask :=
  let r := xQueueReceive s.xQueueButId
  let s1 := { s with xQueueButId := r.2 }
  let t1 : LedTask :=
    match r.1 with
    | some v => { t with delay_ms := v }
    | none => { t with trace := t.trace ++ [Ev.block 10] }
  if t1.delay_ms > 0 then
    (s1, { t1 with trace := t1.trace ++
      [Ev.put LED_PIN_R true, Ev.block t1.delay_ms,
       Ev.put LED_PIN_R false, Ev.block t1.delay_ms] })
  else
    (s1, { t1 with trace := t1.trace ++ [Ev.block 10] })

/-- One pass through the loop of `led_task_green`. -/
def led_task_green_iter (s : State) (t : LedTask) : State × LedTask :=
  let r := xQueueReceive s.xQueueBtn2
  let s1 := { s with xQueueBtn2 := r.2 }
  let t1 : LedTask :=
    match r.1 with
    | some v => { t with delay_ms := v }
    | none => { t with trace := t.trace ++ [Ev.block 10] }
  if t1.delay_ms > 0 then
    (s1, { t1 with trace := t1.trace ++
      [Ev.put LED_PIN_G true, Ev.block t1.delay_ms,
       Ev.put LED_PIN_G false, Ev.block t1.delay_ms] })
  else
    (s1, { t1 with trace := t1.trace ++ [Ev.block 10] })

/-- The globals once `main` has created the queues: both counters 0, both queues
empty with room for 32 values. -/
def main_init : State :=
  { next_delay_r := 0, next_delay_g := 0,
    xQueueButId := xQueueCreate 32, xQueueBtn2 := xQueueCreate 32 }

/-- A run of interrupts, oldest first; each is the pair `( gpio, events)` handed to
`btn_callback`. -/
def irqs (GPIO_IRQ_EDGE_FALL : Nat) (s : State) (es : List (Nat × Nat)) : State :=
  es.foldl (fun st e => btn_callback GPIO_IRQ_EDGE_FALL st e.1 e.2) s

/-- The number `n` of passes through the loop of `led_task_red`, one after the other. -/
def led_task_red_run : Nat → State → LedTask → State × LedTask
  | 0, s, t => (s, t)
  | n + 1, s, t => let r := led_task_red_iter s t; led_task_red_run n r.1 r.2

/-- The number `n` of passes through the loop of `led_task_green`, one after the other. -/
def led_task_green_run : Nat → State → LedTask → State × LedTask
  | 0, s, t => (s, t)
  | n + 1, s, t => let r := led_task_green_iter s t; led_task_green_run n r.1 r.2

/-- The ramp of the claims: the `n`-th value, `n ≥ 1`, is `((n-1) mod 10 + 1) * 100`. -/
def ramp (n : Nat) : Int := (((n - 1) % 10 + 1) * 100 : Nat)

end Exe4

/-! ## Variant B: `src/exe5/main.c` -/

/-- The take `xSemaphoreTake(sem, timeout)` on a binary semaphore: `pdTRUE` when it is
available, and it is consumed; `pdFALSE` (timed out) when it is not. -/
def xSemaphoreTake (sem : Bool) : Bool × Bool := (sem, false)

/-- The last value written to `pin` along a trace, if any. -/
def lastPut (pin : Nat) : List Ev → Option Bool
  | [] => none
  | Ev.block _ :: es => lastPut pin es
  | Ev.put p v :: es =>
    match lastPut pin es with
    | some w => some w
    | none => if p = pin then some v else none

namespace Exe5

def BTN_PIN_R : Nat := 28
def BTN_PIN_Y : Nat := 21
def LED_PIN_R : Nat := 5
def LED_PIN_Y : Nat := 10

/-- The globals of `exe5`: the queue of button tags and the two binary semaphores. -/
structure State where
  xQueueBtn : Queue Nat
  xSemaphoreLedR : Bool
  xSemaphoreLedY : Bool
deriving DecidableEq

/-- The interrupt handler `btn_callback( gpio, events)`: the tag is chosen from the pin
(`none` stands for the early `return`), then sent without blocking. -/
def btn_callback (GPIO_IRQ_EDGE_FALL : Nat) (s : State) ( gpio events : Nat) : State :=
  if events &&& GPIO_IRQ_EDGE_FALL = 0 then s
  else
    let id : Option Nat :=
      if gpio = BTN_PIN_R then some 'R'.toNat
      else if gpio = BTN_PIN_Y then some 'Y'.toNat
      else none
    match id with
    | none => s
    | some c => { s with xQueueBtn := (xQueueSendFromISR s.xQueueBtn c).2 }

/-- One pass through the loop of `btn_task`.  The receive waits with `portMAX_DELAY`:
on an empty queue the task stays blocked and nothing changes. -/
def btn_task_iter (s : State) : State :=
  let r := xQueueReceive s.xQueueBtn
  match r.1 with
  | some c =>
    let s1 := { s with xQueueBtn := r.2 }
    if c = 'R'.toNat then { s1 with xSemaphoreLedR := xSemaphoreGive s1.xSemaphoreLedR }
    else if c = 'Y'.toNat then { s1 with xSemaphoreLedY := xSemaphoreGive s1.xSemaphoreLedY }
    else s1
  | none => s

/-- The locals of `led_task` together with the trace of what it did. -/
structure LedTask where
  ativo : Bool
  level : Bool
  trace : List Ev
deriving DecidableEq

/-- The state of `led_task(led_pin, _)` when it enters its loop: the pin has been
driven low, `ativo = false`, `level = false`. -/
def LedTask.start (led_pin : Nat) : LedTask :=
  { ativo := false, level := false, trace := [Ev.put led_pin false] }

/-- One pass through the loop of `led_task(led_pin, sem)`; `sem` is the state of the
semaphore when `xSemaphoreTake` is called, and the first component of the result
is its state afterwards. -/
def led_task_iter (led_pin : Nat) (sem : Bool) (t : LedTask) : Bool × LedTask :=
  let r := xSemaphoreTake sem
  if r.1 then
    let ativo := !t.ativo
    if !ativo then
      (r.2, { ativo := ativo, level := false, trace := t.trace ++ [Ev.put led_pin false] })
    else
      (r.2, { t with ativo := ativo })
  else
    if t.ativo then
      let level := !t.level
      (r.2, { t with level := level, trace := t.trace ++ [Ev.block 100, Ev.put led_pin level] })
    else
      (r.2, { t with trace := t.trace ++ [Ev.block 100] })

/-- A run of passes through the loop of `led_task`, one per entry of the list: `true`
for a pass whose `xSemaphoreTake` took the semaphore, `false` for one that timed out. -/
def led_task_run (led_pin : Nat) (t : LedTask) (takes : List Bool) : LedTask :=
  takes.foldl (fun st b => (led_task_iter led_pin b st).2) t

/-- The invariant of `led_task`: the pin shows `level`, and an inactive task has `level = false`. -/
def LedInv (led_pin : Nat) (t : LedTask) : Prop :=
  lastPut led_pin t.trace = some t.level ∧ (t.ativo = false → t.level = false)

/-- The globals once `main` has created the queue (16 tags) and the two semaphores,
which `xSemaphoreCreateBinary` creates empty. -/
def main_init : State :=
  { xQueueBtn := xQueueCreate 16, xSemaphoreLedR := false, xSemaphoreLedY := false }

/-- A run of interrupts, oldest first; each is the pair `( gpio, events)` handed to
`btn_callback`. -/
def irqs (GPIO_IRQ_EDGE_FALL : Nat) (s : State) (es : List (Nat × Nat)) : State :=
  es.foldl (fun st e => btn_callback GPIO_IRQ_EDGE_FALL st e.1 e.2) s

end Exe5

/-! ## The queue -/

theorem xQueueSendFromISR_full {α : Type} (q : Queue α) (x : α)
    (h : q.uxLength ≤ q.items.length) : xQueueSendFromISR q x = (false, q) := by
  unfold xQueueSendFromISR
  rw [if_neg (by omega)]

/-! ## Variant A: the ramp -/

namespace Exe4

theorem bump_delay_ramp (n : Nat) :
    bump_delay (if n = 0 then 0 else ramp n) = (ramp (n + 1), ramp (n + 1)) := by
  have key : (if (if n = 0 then (0 : Int) else ramp n) < 1000
      then (if n = 0 then (0 : Int) else ramp n) + 100 else 100) = ramp (n + 1) := by
    unfold ramp
    split_ifs <;> omega
  simp only [bump_delay, key]

theorem btn_callback_fall_R (fall : Nat) (s : State) (e : Nat) (he : e &&& fall ≠ 0) :
    btn_callback fall s BTN_PIN_R e =
      { s with next_delay_r := (bump_delay s.next_delay_r).1,
               xQueueButId := (xQueueSendFromISR s.xQueueButId (bump_delay s.next_delay_r).2).2 } := by
  simp [btn_callback, he]

theorem btn_callback_fall_G (fall : Nat) (s : State) (e : Nat) (he : e &&& fall ≠ 0) :
    btn_callback fall s BTN_PIN_G e =
      { s with next_delay_g := (bump_delay s.next_delay_g).1,
               xQueueBtn2 := (xQueueSendFromISR s.xQueueBtn2 (bump_delay s.next_delay_g).2).2 } := by
  simp [btn_callback, he, BTN_PIN_G, BTN_PIN_R]

theorem irqs_cons (fall : Nat) (s : State) (e : Nat × Nat) (es : List (Nat × Nat)) :
    irqs fall s (e :: es) = irqs fall (btn_callback fall s e.1 e.2) es := rfl

/-- What a run of falling edges on the R button does, from a state whose R counter
stands at step `n` of the ramp. -/
theorem pressR_inv (fall : Nat) : ∀ (evs : List Nat) (s : State) (n : Nat),
    (∀ e ∈ evs, e &&& fall ≠ 0) → s.next_delay_r = (if n = 0 then 0 else ramp n) →
    (irqs fall s (evs.map (fun e => (BTN_PIN_R, e)))).next_delay_r
        = (if n + evs.length = 0 then 0 else ramp (n + evs.length)) ∧
    (irqs fall s (evs.map (fun e => (BTN_PIN_R, e)))).next_delay_g = s.next_delay_g ∧
    (irqs fall s (evs.map (fun e => (BTN_PIN_R, e)))).xQueueBtn2 = s.xQueueBtn2 ∧
    (irqs fall s (evs.map (fun e => (BTN_PIN_R, e)))).xQueueButId.uxLength
        = s.xQueueButId.uxLength ∧
    (s.xQueueButId.items.length + evs.length ≤ s.xQueueButId.uxLength →
      (irqs fall s (evs.map (fun e => (BTN_PIN_R, e)))).xQueueButId.items
        = s.xQueueButId.items ++ (List.range' (n + 1) evs.length).map ramp) := by
  intro evs
  induction evs with
  | nil => intro s n _ hs; simp [irqs, hs]
  | cons e evs ih =>
    intro s n hall hs
    have he : e &&& fall ≠ 0 := hall e (List.mem_cons_self _ _)
    have hrest : ∀ x ∈ evs, x &&& fall ≠ 0 := fun x hx => hall x (List.mem_cons_of_mem _ hx)
    have hb : bump_delay s.next_delay_r = (ramp (n + 1), ramp (n + 1)) := by
      rw [hs]; exact bump_delay_ramp n
    simp only [List.map_cons, irqs_cons, btn_callback_fall_R fall s e he, hb]
    have h := ih { s with next_delay_r := ramp (n + 1),
                          xQueueButId := (xQueueSendFromISR s.xQueueButId (ramp (n + 1))).2 }
      (n + 1) hrest (by simp)
    obtain ⟨h1, h2, h3, h4, h5⟩ := h
    have hn : n + 1 + evs.length = n + (evs.length + 1) := by omega
    refine ⟨?_, h2, h3, ?_, ?_⟩
    · rw [h1, List.length_cons, hn]
    · rw [h4]; unfold xQueueSendFromISR; split_ifs <;> rfl
    · intro hlen
      simp only [List.length_cons] at hlen
      have hroom : s.xQueueButId.items.length < s.xQueueButId.uxLength := by omega
      have hsend : (xQueueSendFromISR s.xQueueButId (ramp (n + 1))).2
          = { s.xQueueButId with items := s.xQueueButId.items ++ [ramp (n + 1)] } := by
        simp [xQueueSendFromISR, hroom]
      rw [hsend] at h5 ⊢
      rw [h5 (by simp; omega)]
      simp [List.range'_succ]

/-- What a run of falling edges on the G button does, from a state whose G counter
stands at step `n` of the ramp. -/
theorem pressG_inv (fall : Nat) : ∀ (evs : List Nat) (s : State) (n : Nat),
    (∀ e ∈ evs, e &&& fall ≠ 0) → s.next_delay_g = (if n = 0 then 0 else ramp n) →
    (irqs fall s (evs.map (fun e => (BTN_PIN_G, e)))).next_delay_g
        = (if n + evs.length = 0 then 0 else ramp (n + evs.length)) ∧
    (irqs fall s (evs.map (fun e => (BTN_PIN_G, e)))).next_delay_r = s.next_delay_r ∧
    (irqs fall s (evs.map (fun e => (BTN_PIN_G, e)))).xQueueButId = s.xQueueButId ∧
    (irqs fall s (evs.map (fun e => (BTN_PIN_G, e)))).xQueueBtn2.uxLength
        = s.xQueueBtn2.uxLength ∧
    (s.xQueueBtn2.items.length + evs.length ≤ s.xQueueBtn2.uxLength →
      (irqs fall s (evs.map (fun e => (BTN_PIN_G, e)))).xQueueBtn2.items
        = s.xQueueBtn2.items ++ (List.range' (n + 1) evs.length).map ramp) := by
  intro evs
  induction evs with
  | nil => intro s n _ hs; simp [irqs, hs]
  | cons e evs ih =>
    intro s n hall hs
    have he : e &&& fall ≠ 0 := hall e (List.mem_cons_self _ _)
    have hrest : ∀ x ∈ evs, x &&& fall ≠ 0 := fun x hx => hall x (List.mem_cons_of_mem _ hx)
    have hb : bump_delay s.next_delay_g = (ramp (n + 1), ramp (n + 1)) := by
      rw [hs]; exact bump_delay_ramp n
    simp only [List.map_cons, irqs_cons, btn_callback_fall_G fall s e he, hb]
    have h := ih { s with next_delay_g := ramp (n + 1),
                          xQueueBtn2 := (xQueueSendFromISR s.xQueueBtn2 (ramp (n + 1))).2 }
      (n + 1) hrest (by simp)
    obtain ⟨h1, h2, h3, h4, h5⟩ := h
    have hn : n + 1 + evs.length = n + (evs.length + 1) := by omega
    refine ⟨?_, h2, h3, ?_, ?_⟩
    · rw [h1, List.length_cons, hn]
    · rw [h4]; unfold xQueueSendFromISR; split_ifs <;> rfl
    · intro hlen
      simp only [List.length_cons] at hlen
      have hroom : s.xQueueBtn2.items.length < s.xQueueBtn2.uxLength := by omega
      have hsend : (xQueueSendFromISR s.xQueueBtn2 (ramp (n + 1))).2
          = { s.xQueueBtn2 with items := s.xQueueBtn2.items ++ [ramp (n + 1)] } := by
        simp [xQueueSendFromISR, hroom]
      rw [hsend] at h5 ⊢
      rw [h5 (by simp; omega)]
      simp [List.range'_succ]

/-- C1. Variant A ramp.  Take any run `evs` of falling-edge events (each with the
falling-edge bit set), `N - 1` of them, delivered to one button, and a next falling
edge `e` on that button, the `N`-th.  If the stored period of that channel was 0
at the start (whatever the other channel and the queues held), then `bump_delay`
returns `((N-1) mod 10 + 1) * 100` on the `N`-th event, and `btn_callback` stores
that value back and submits exactly that value to the queue of the channel with
`xQueueSendFromISR`.  This holds for the R button and for the G button, each under
the condition on its own stored period only. -/
theorem ramp_nth_press (fall : Nat) (s : State) (evs : List Nat) (e : Nat)
    (hall : ∀ x ∈ evs, x &&& fall ≠ 0) (he : e &&& fall ≠ 0) :
    (s.next_delay_r = 0 →
     (bump_delay (irqs fall s (evs.map (fun x => (BTN_PIN_R, x)))).next_delay_r).2
        = ((((evs.length + 1 - 1) % 10 + 1) * 100 : Nat) : Int) ∧
     btn_callback fall (irqs fall s (evs.map (fun x => (BTN_PIN_R, x)))) BTN_PIN_R e
        = { irqs fall s (evs.map (fun x => (BTN_PIN_R, x))) with
            next_delay_r := ((((evs.length + 1 - 1) % 10 + 1) * 100 : Nat) : Int),
            xQueueButId := (xQueueSendFromISR
              (irqs fall s (evs.map (fun x => (BTN_PIN_R, x)))).xQueueButId
              ((((evs.length + 1 - 1) % 10 + 1) * 100 : Nat) : Int)).2 }) ∧
    (s.next_delay_g = 0 →
     (bump_delay (irqs fall s (evs.map (fun x => (BTN_PIN_G, x)))).next_delay_g).2
        = ((((evs.length + 1 - 1) % 10 + 1) * 100 : Nat) : Int) ∧
     btn_callback fall (irqs fall s (evs.map (fun x => (BTN_PIN_G, x)))) BTN_PIN_G e
        = { irqs fall s (evs.map (fun x => (BTN_PIN_G, x))) with
            next_delay_g := ((((evs.length + 1 - 1) % 10 + 1) * 100 : Nat) : Int),
            xQueueBtn2 := (xQueueSendFromISR
              (irqs fall s (evs.map (fun x => (BTN_PIN_G, x)))).xQueueBtn2
              ((((evs.length + 1 - 1) % 10 + 1) * 100 : Nat) : Int)).2 }) := by
  refine ⟨?_, ?_⟩
  · intro hr
    have hR := (pressR_inv fall evs s 0 hall (by simpa using hr)).1
    have bR := bump_delay_ramp evs.length
    simp only [Nat.zero_add] at hR
    rw [← hR] at bR
    refine ⟨?_, ?_⟩
    · rw [bR]; rfl
    · rw [btn_callback_fall_R fall _ e he, bR]; rfl
  · intro hg
    have hG := (pressG_inv fall evs s 0 hall (by simpa using hg)).1
    have bG := bump_delay_ramp evs.length
    simp only [Nat.zero_add] at hG
    rw [← hG] at bG
    refine ⟨?_, ?_⟩
    · rw [bG]; rfl
    · rw [btn_callback_fall_G fall _ e he, bG]; rfl

/-- The third press on R (falling-edge bit 4, events mask 4) computes and submits 300
although the G channel is not in its initial state (its stored period is 700 and its
queue holds an entry); and the third press on G from the state set up by `main`
computes and submits 300. -/
theorem ramp_nth_press_witness :
    ((bump_delay (irqs 4
        { next_delay_r := 0, next_delay_g := 700, xQueueButId := xQueueCreate 32,
          xQueueBtn2 := { uxLength := 32, items := [700] } }
        ([4, 4].map (fun x => (BTN_PIN_R, x)))).next_delay_r).2 = 300 ∧
     btn_callback 4 (irqs 4
        { next_delay_r := 0, next_delay_g := 700, xQueueButId := xQueueCreate 32,
          xQueueBtn2 := { uxLength := 32, items := [700] } }
        ([4, 4].map (fun x => (BTN_PIN_R, x)))) BTN_PIN_R 4
      = { next_delay_r := 300, next_delay_g := 700,
          xQueueButId := { uxLength := 32, items := [100, 200, 300] },
          xQueueBtn2 := { uxLength := 32, items := [700] } }) ∧
    ((bump_delay (irqs 4 main_init ([4, 4].map (fun x => (BTN_PIN_G, x)))).next_delay_g).2
        = 300 ∧
     btn_callback 4 (irqs 4 main_init ([4, 4].map (fun x => (BTN_PIN_G, x)))) BTN_PIN_G 4
      = { next_delay_r := 0, next_delay_g := 300,
          xQueueButId := { uxLength := 32, items := [] },
          xQueueBtn2 := { uxLength := 32, items := [100, 200, 300] } }) :=
  ⟨(ramp_nth_press 4
        { next_delay_r := 0, next_delay_g := 700, xQueueButId := xQueueCreate 32,
          xQueueBtn2 := { uxLength := 32, items := [700] } } [4, 4] 4
      (by decide) (by decide)).1 rfl,
   (ramp_nth_press 4 main_init [4, 4] 4 (by decide) (by decide)).2 rfl⟩

/-! ## Variant A: draining the queue -/

theorem led_task_red_iter_cons (s : State) (t : LedTask) (x : Int) (rest : List Int)
    (h : s.xQueueButId.items = x :: rest) :
    (led_task_red_iter s t).2.delay_ms = x ∧
    (led_task_red_iter s t).1 = { s with xQueueButId := { s.xQueueButId with items := rest } } := by
  unfold led_task_red_iter xQueueReceive
  simp only [h]
  split_ifs <;> exact ⟨rfl, rfl⟩

theorem led_task_red_run_succ (n : Nat) (s : State) (t : LedTask) :
    led_task_red_run (n + 1) s t
      = led_task_red_run n (led_task_red_iter s t).1 (led_task_red_iter s t).2 := rfl

/-- The pass number `n + 1` of `led_task_red` over a queue that nobody refills sets
`delay_ms` to the entry at position `n` and leaves the entries after it. -/
theorem led_task_red_run_drain : ∀ (n : Nat) (s : State) (t : LedTask) (v : Int),
    s.xQueueButId.items[n]? = some v →
    (led_task_red_run (n + 1) s t).2.delay_ms = v ∧
    (led_task_red_run (n + 1) s t).1.xQueueButId.items = s.xQueueButId.items.drop (n + 1) := by
  intro n
  induction n with
  | zero =>
    intro s t v hv
    cases hq : s.xQueueButId.items with
    | nil => simp [hq] at hv
    | cons x rest =>
      simp only [hq, List.getElem?_cons_zero, Option.some.injEq] at hv
      obtain ⟨h1, h2⟩ := led_task_red_iter_cons s t x rest hq
      rw [led_task_red_run_succ]
      simp only [led_task_red_run, h1, h2, hv, List.drop_succ_cons, List.drop_zero, and_self]
  | succ n ih =>
    intro s t v hv
    cases hq : s.xQueueButId.items with
    | nil => simp [hq] at hv
    | cons x rest =>
      simp only [hq, List.getElem?_cons_succ] at hv
      obtain ⟨_, h2⟩ := led_task_red_iter_cons s t x rest hq
      rw [led_task_red_run_succ]
      have h := ih (led_task_red_iter s t).1 (led_task_red_iter s t).2 v (by rw [h2]; exact hv)
      rw [h2] at h ⊢
      simpa using h

theorem led_task_green_iter_cons (s : State) (t : LedTask) (x : Int) (rest : List Int)
    (h : s.xQueueBtn2.items = x :: rest) :
    (led_task_green_iter s t).2.delay_ms = x ∧
    (led_task_green_iter s t).1 = { s with xQueueBtn2 := { s.xQueueBtn2 with items := rest } } := by
  unfold led_task_green_iter xQueueReceive
  simp only [h]
  split_ifs <;> exact ⟨rfl, rfl⟩

theorem led_task_green_run_succ (n : Nat) (s : State) (t : LedTask) :
    led_task_green_run (n + 1) s t
      = led_task_green_run n (led_task_green_iter s t).1 (led_task_green_iter s t).2 := rfl

/-- The pass number `n + 1` of `led_task_green` over a queue that nobody refills sets
`delay_ms` to the entry at position `n` and leaves the entries after it. -/
theorem led_task_green_run_drain : ∀ (n : Nat) (s : State) (t : LedTask) (v : Int),
    s.xQueueBtn2.items[n]? = some v →
    (led_task_green_run (n + 1) s t).2.delay_ms = v ∧
    (led_task_green_run (n + 1) s t).1.xQueueBtn2.items = s.xQueueBtn2.items.drop (n + 1) := by
  intro n
  induction n with
  | zero =>
    intro s t v hv
    cases hq : s.xQueueBtn2.items with
    | nil => simp [hq] at hv
    | cons x rest =>
      simp only [hq, List.getElem?_cons_zero, Option.some.injEq] at hv
      obtain ⟨h1, h2⟩ := led_task_green_iter_cons s t x rest hq
      rw [led_task_green_run_succ]
      simp only [led_task_green_run, h1, h2, hv, List.drop_succ_cons, List.drop_zero, and_self]
  | succ n ih =>
    intro s t v hv
    cases hq : s.xQueueBtn2.items with
    | nil => simp [hq] at hv
    | cons x rest =>
      simp only [hq, List.getElem?_cons_succ] at hv
      obtain ⟨_, h2⟩ := led_task_green_iter_cons s t x rest hq
      rw [led_task_green_run_succ]
      have h := ih (led_task_green_iter s t).1 (led_task_green_iter s t).2 v (by rw [h2]; exact hv)
      rw [h2] at h ⊢
      simpa using h

theorem drop_range'_eq : ∀ (i s k : Nat), (List.range' s k).drop i = List.range' (s + i) (k - i) := by
  intro i
  induction i with
  | zero => intro s k; simp
  | succ i ih =>
    intro s k
    cases k with
    | zero => simp
    | succ k =>
      rw [List.range'_succ, List.drop_succ_cons, ih]
      have h1 : s + 1 + i = s + (i + 1) := by omega
      have h2 : k + 1 - (i + 1) = k - i := by omega
      rw [h1, h2]

theorem ramp_eq (i : Nat) : ramp i = ((100 * ((i - 1) % 10 + 1) : Nat) : Int) := by
  unfold ramp; rw [Nat.mul_comm]

/-- C7. Variant A FIFO delivery.  Take a state in which the stored period of a
channel is 0 and its queue is empty with room for 32 (as `main` sets it up; the
other channel may be in any state), and let `k ≤ 32` falling edges arrive on the
button of that channel with no receive in between.  Then the queue of the channel
holds exactly `100 * ((i-1) mod 10 + 1)` for `i = 1..k`, in press order; and for
every `i` from 1 to `k`, after `i` passes through the loop of the LED task of that
channel `delay_ms` is the `i`-th of these values and the queue holds exactly the
values for `i+1..k`: each pass takes one entry, none is skipped or reordered.
Stated for the R channel (`led_task_red`) and for the G channel
(`led_task_green`), each under the conditions on its own channel only. -/
theorem fifo_delivery (fall : Nat) (s : State) (evs : List Nat) (t : LedTask)
    (hall : ∀ x ∈ evs, x &&& fall ≠ 0) (h32 : evs.length ≤ 32) :
    (s.next_delay_r = 0 → s.xQueueButId = xQueueCreate 32 →
     (irqs fall s (evs.map (fun x => (BTN_PIN_R, x)))).xQueueButId.items
        = (List.range' 1 evs.length).map (fun i => ((100 * ((i - 1) % 10 + 1) : Nat) : Int)) ∧
     ∀ i, 1 ≤ i → i ≤ evs.length →
      (led_task_red_run i (irqs fall s (evs.map (fun x => (BTN_PIN_R, x)))) t).2.delay_ms
        = ((100 * ((i - 1) % 10 + 1) : Nat) : Int) ∧
      (led_task_red_run i (irqs fall s (evs.map (fun x => (BTN_PIN_R, x)))) t).1.xQueueButId.items
        = (List.range' (i + 1) (evs.length - i)).map
            (fun j => ((100 * ((j - 1) % 10 + 1) : Nat) : Int))) ∧
    (s.next_delay_g = 0 → s.xQueueBtn2 = xQueueCreate 32 →
     (irqs fall s (evs.map (fun x => (BTN_PIN_G, x)))).xQueueBtn2.items
        = (List.range' 1 evs.length).map (fun i => ((100 * ((i - 1) % 10 + 1) : Nat) : Int)) ∧
     ∀ i, 1 ≤ i → i ≤ evs.length →
      (led_task_green_run i (irqs fall s (evs.map (fun x => (BTN_PIN_G, x)))) t).2.delay_ms
        = ((100 * ((i - 1) % 10 + 1) : Nat) : Int) ∧
      (led_task_green_run i (irqs fall s (evs.map (fun x => (BTN_PIN_G, x)))) t).1.xQueueBtn2.items
        = (List.range' (i + 1) (evs.length - i)).map
            (fun j => ((100 * ((j - 1) % 10 + 1) : Nat) : Int))) := by
  have hf : (fun i : Nat => ((100 * ((i - 1) % 10 + 1) : Nat) : Int)) = ramp := by
    funext i; exact (ramp_eq i).symm
  rw [hf]
  refine ⟨?_, ?_⟩
  · intro hr hrq
    have hR := (pressR_inv fall evs s 0 hall (by simp [hr])).2.2.2.2
      (by rw [hrq]; simpa [xQueueCreate] using h32)
    rw [hrq] at hR
    simp only [xQueueCreate, List.nil_append, Nat.zero_add] at hR
    refine ⟨hR, ?_⟩
    intro i h1 hi
    obtain ⟨j, rfl⟩ : ∃ j, i = j + 1 := ⟨i - 1, by omega⟩
    have hget : (irqs fall s (evs.map (fun x => (BTN_PIN_R, x)))).xQueueButId.items[j]?
        = some (ramp (j + 1)) := by
      rw [hR, List.getElem?_map, List.getElem?_range' 1 1 (by omega)]
      simp [Nat.add_comm]
    obtain ⟨h1, h2⟩ := led_task_red_run_drain j _ t _ hget
    refine ⟨by rw [h1, ramp_eq], ?_⟩
    rw [h2, hR, ← List.map_drop, drop_range'_eq, Nat.add_comm 1 (j + 1)]
  · intro hg hgq
    have hG := (pressG_inv fall evs s 0 hall (by simp [hg])).2.2.2.2
      (by rw [hgq]; simpa [xQueueCreate] using h32)
    rw [hgq] at hG
    simp only [xQueueCreate, List.nil_append, Nat.zero_add] at hG
    refine ⟨hG, ?_⟩
    intro i h1 hi
    obtain ⟨j, rfl⟩ : ∃ j, i = j + 1 := ⟨i - 1, by omega⟩
    have hget : (irqs fall s (evs.map (fun x => (BTN_PIN_G, x)))).xQueueBtn2.items[j]?
        = some (ramp (j + 1)) := by
      rw [hG, List.getElem?_map, List.getElem?_range' 1 1 (by omega)]
      simp [Nat.add_comm]
    obtain ⟨h1, h2⟩ := led_task_green_run_drain j _ t _ hget
    refine ⟨by rw [h1, ramp_eq], ?_⟩
    rw [h2, hG, ← List.map_drop, drop_range'_eq, Nat.add_comm 1 (j + 1)]

/-- Three presses on R (falling-edge bit 4, events mask 4) while the G channel is not
in its initial state (stored period 700, one entry queued): the R queue holds 100,
200, 300 and three passes of `led_task_red` set `delay_ms` to 100, then 200, then
300, emptying the queue. -/
theorem fifo_delivery_witness :
    (irqs 4
        { next_delay_r := 0, next_delay_g := 700, xQueueButId := xQueueCreate 32,
          xQueueBtn2 := { uxLength := 32, items := [700] } }
        ([4, 4, 4].map (fun x => (BTN_PIN_R, x)))).xQueueButId.items = [100, 200, 300] ∧
    (led_task_red_run 1 (irqs 4
        { next_delay_r := 0, next_delay_g := 700, xQueueButId := xQueueCreate 32,
          xQueueBtn2 := { uxLength := 32, items := [700] } }
        ([4, 4, 4].map (fun x => (BTN_PIN_R, x)))) LedTask.start).2.delay_ms = 100 ∧
    (led_task_red_run 2 (irqs 4
        { next_delay_r := 0, next_delay_g := 700, xQueueButId := xQueueCreate 32,
          xQueueBtn2 := { uxLength := 32, items := [700] } }
        ([4, 4, 4].map (fun x => (BTN_PIN_R, x)))) LedTask.start).2.delay_ms = 200 ∧
    (led_task_red_run 3 (irqs 4
        { next_delay_r := 0, next_delay_g := 700, xQueueButId := xQueueCreate 32,
          xQueueBtn2 := { uxLength := 32, items := [700] } }
        ([4, 4, 4].map (fun x => (BTN_PIN_R, x)))) LedTask.start).2.delay_ms = 300 ∧
    (led_task_red_run 3 (irqs 4
        { next_delay_r := 0, next_delay_g := 700, xQueueButId := xQueueCreate 32,
          xQueueBtn2 := { uxLength := 32, items := [700] } }
        ([4, 4, 4].map (fun x => (BTN_PIN_R, x)))) LedTask.start).1.xQueueButId.items = [] := by
  have h := (fifo_delivery 4
        { next_delay_r := 0, next_delay_g := 700, xQueueButId := xQueueCreate 32,
          xQueueBtn2 := { uxLength := 32, items := [700] } }
    [4, 4, 4] LedTask.start (by decide) (by decide)).1 rfl rfl
  refine ⟨h.1, (h.2 1 (by decide) (by decide)).1, (h.2 2 (by decide) (by decide)).1,
    (h.2 3 (by decide) (by decide)).1, (h.2 3 (by decide) (by decide)).2⟩

/-! ## Variant A: a full queue -/

/-- A run of falling edges on R does the same whatever the value of the falling-edge
bit and whatever else is set in the events mask. -/
theorem irqs_replicate_R (fall e : Nat) (he : e &&& fall ≠ 0) : ∀ (n : Nat) (s : State),
    irqs fall s (List.replicate n (BTN_PIN_R, e)) = irqs 4 s (List.replicate n (BTN_PIN_R, 4)) := by
  intro n
  induction n with
  | zero => intro s; rfl
  | succ n ih =>
    intro s
    rw [List.replicate_succ, List.replicate_succ, irqs_cons, irqs_cons, ih,
      btn_callback_fall_R fall s e he, btn_callback_fall_R 4 s 4 (by decide)]

set_option maxRecDepth 100000 in
/-- The state after 32 falling edges on R from the state set up by `main`. -/
theorem irqs_32_R (fall e : Nat) (he : e &&& fall ≠ 0) :
    irqs fall main_init (List.replicate 32 (BTN_PIN_R, e))
      = { next_delay_r := 200, next_delay_g := 0,
          xQueueButId := { uxLength := 32, items :=
            [100, 200, 300, 400, 500, 600, 700, 800, 900, 1000,
             100, 200, 300, 400, 500, 600, 700, 800, 900, 1000,
             100, 200, 300, 400, 500, 600, 700, 800, 900, 1000, 100, 200] },
          xQueueBtn2 := { uxLength := 32, items := [] } } := by
  rw [irqs_replicate_R fall e he 32 main_init]
  rfl

/-- C10. Variant A: the ramp counter advances even when the message is dropped.
For a falling edge on a button whose queue is full, `btn_callback` stores the
bumped value in `next_delay_r` (resp. `next_delay_g`) and changes nothing else.
Scenario: 32 presses on R from the state set up by `main` fill the queue, the
last value enqueued being 200; press 33 is dropped but moves the counter to 300;
one pass of `led_task_red` frees a slot; press 34 then enqueues 400, which is not
the ramp successor 300 of the last value enqueued before the drop. -/
theorem drop_breaks_ramp (fall e : Nat) (he : e &&& fall ≠ 0) (t : LedTask) :
    (∀ s : State, s.xQueueButId.uxLength ≤ s.xQueueButId.items.length →
      btn_callback fall s BTN_PIN_R e
        = { s with next_delay_r := (bump_delay s.next_delay_r).1 }) ∧
    (∀ s : State, s.xQueueBtn2.uxLength ≤ s.xQueueBtn2.items.length →
      btn_callback fall s BTN_PIN_G e
        = { s with next_delay_g := (bump_delay s.next_delay_g).1 }) ∧
    (let s32 := irqs fall main_init (List.replicate 32 (BTN_PIN_R, e))
     let s33 := btn_callback fall s32 BTN_PIN_R e
     let s33r := (led_task_red_iter s33 t).1
     let s34 := btn_callback fall s33r BTN_PIN_R e
     s32.xQueueButId.items.length = s32.xQueueButId.uxLength ∧
     s32.xQueueButId.items.getLast? = some 200 ∧
     s33.xQueueButId = s32.xQueueButId ∧ s33.next_delay_r = 300 ∧
     s33r.xQueueButId.items = s32.xQueueButId.items.tail ∧
     s34.xQueueButId.items = s33r.xQueueButId.items ++ [400] ∧
     (bump_delay 200).2 = 300 ∧ (400 : Int) ≠ (bump_delay 200).2) := by
  refine ⟨?_, ?_, ?_⟩
  · intro s hs
    rw [btn_callback_fall_R fall s e he, xQueueSendFromISR_full _ _ hs]
  · intro s hs
    rw [btn_callback_fall_G fall s e he, xQueueSendFromISR_full _ _ hs]
  · simp only [irqs_32_R fall e he, btn_callback_fall_R fall _ e he]
    have hq := (led_task_red_iter_cons
      { next_delay_r := (bump_delay 200).1, next_delay_g := 0,
        xQueueButId := (xQueueSendFromISR ({ uxLength := 32, items :=
            [100, 200, 300, 400, 500, 600, 700, 800, 900, 1000,
             100, 200, 300, 400, 500, 600, 700, 800, 900, 1000,
             100, 200, 300, 400, 500, 600, 700, 800, 900, 1000, 100, 200] } : Queue Int)
            (bump_delay 200).2).2,
        xQueueBtn2 := { uxLength := 32, items := [] } } t 100
        [200, 300, 400, 500, 600, 700, 800, 900, 1000,
         100, 200, 300, 400, 500, 600, 700, 800, 900, 1000,
         100, 200, 300, 400, 500, 600, 700, 800, 900, 1000, 100, 200] rfl).2
    rw [hq]
    refine ⟨rfl, rfl, rfl, rfl, rfl, rfl, rfl, by decide⟩

/-- With falling-edge bit 4 and events mask 4: press 33 against the full queue moves
the counter to 300 and leaves the queue as it was. -/
theorem drop_breaks_ramp_witness :
    (btn_callback 4 (irqs 4 main_init (List.replicate 32 (BTN_PIN_R, 4))) BTN_PIN_R 4).next_delay_r
      = 300 ∧
    (btn_callback 4 (irqs 4 main_init (List.replicate 32 (BTN_PIN_R, 4))) BTN_PIN_R 4).xQueueButId
      = (irqs 4 main_init (List.replicate 32 (BTN_PIN_R, 4))).xQueueButId :=
  ⟨(drop_breaks_ramp 4 4 (by decide) LedTask.start).2.2.2.2.2.1,
   (drop_breaks_ramp 4 4 (by decide) LedTask.start).2.2.2.2.1⟩

/-! ## Variant A: timing of the blink -/

theorem led_task_red_iter_empty (s : State) (t : LedTask)
    (hq : s.xQueueButId.items = []) (hP : 0 < t.delay_ms) :
    led_task_red_iter s t = (s, { t with trace := t.trace ++
      [Ev.block 10, Ev.put LED_PIN_R true, Ev.block t.delay_ms,
       Ev.put LED_PIN_R false, Ev.block t.delay_ms] }) := by
  unfold led_task_red_iter xQueueReceive
  simp [hq, hP]

theorem led_task_red_run_empty : ∀ (n : Nat) (s : State) (t : LedTask),
    s.xQueueButId.items = [] → 0 < t.delay_ms →
    led_task_red_run n s t = (s, { t with trace := t.trace ++
      (List.replicate n [Ev.block 10, Ev.put LED_PIN_R true, Ev.block t.delay_ms,
        Ev.put LED_PIN_R false, Ev.block t.delay_ms]).flatten }) := by
  intro n
  induction n with
  | zero => intro s t _ _; simp [led_task_red_run]
  | succ n ih =>
    intro s t hq hP
    rw [led_task_red_run_succ, led_task_red_iter_empty s t hq hP]
    simp only []
    have h := ih s { delay_ms := t.delay_ms, trace := t.trace ++
      [Ev.block 10, Ev.put LED_PIN_R true, Ev.block t.delay_ms,
       Ev.put LED_PIN_R false, Ev.block t.delay_ms] } hq hP
    rw [h]
    simp [List.replicate_succ]

theorem led_task_red_iter_pulse (s : State) (t : LedTask) :
    (led_task_red_iter s t).2.delay_ms
      = (match s.xQueueButId.items with
         | [] => t.delay_ms
         | x :: _ => x) ∧
    (0 < (led_task_red_iter s t).2.delay_ms →
      (led_task_red_iter s t).2.trace
        = t.trace ++ (if s.xQueueButId.items = [] then [Ev.block 10] else []) ++
          [Ev.put LED_PIN_R true, Ev.block (led_task_red_iter s t).2.delay_ms,
           Ev.put LED_PIN_R false, Ev.block (led_task_red_iter s t).2.delay_ms]) := by
  unfold led_task_red_iter xQueueReceive
  cases hq : s.xQueueButId.items with
  | nil =>
    by_cases hP : 0 < t.delay_ms
    · simp [hP]
    · simp [hP]
  | cons x rest =>
    by_cases hP : 0 < x
    · simp [hP]
    · simp [hP]

theorem led_task_green_iter_empty (s : State) (t : LedTask)
    (hq : s.xQueueBtn2.items = []) (hP : 0 < t.delay_ms) :
    led_task_green_iter s t = (s, { t with trace := t.trace ++
      [Ev.block 10, Ev.put LED_PIN_G true, Ev.block t.delay_ms,
       Ev.put LED_PIN_G false, Ev.block t.delay_ms] }) := by
  unfold led_task_green_iter xQueueReceive
  simp [hq, hP]

theorem led_task_green_run_empty : ∀ (n : Nat) (s : State) (t : LedTask),
    s.xQueueBtn2.items = [] → 0 < t.delay_ms →
    led_task_green_run n s t = (s, { t with trace := t.trace ++
      (List.replicate n [Ev.block 10, Ev.put LED_PIN_G true, Ev.block t.delay_ms,
        Ev.put LED_PIN_G false, Ev.block t.delay_ms]).flatten }) := by
  intro n
  induction n with
  | zero => intro s t _ _; simp [led_task_green_run]
  | succ n ih =>
    intro s t hq hP
    rw [led_task_green_run_succ, led_task_green_iter_empty s t hq hP]
    simp only []
    have h := ih s { delay_ms := t.delay_ms, trace := t.trace ++
      [Ev.block 10, Ev.put LED_PIN_G true, Ev.block t.delay_ms,
       Ev.put LED_PIN_G false, Ev.block t.delay_ms] } hq hP
    rw [h]
    simp [List.replicate_succ]

theorem led_task_green_iter_pulse (s : State) (t : LedTask) :
    (led_task_green_iter s t).2.delay_ms
      = (match s.xQueueBtn2.items with
         | [] => t.delay_ms
         | x :: _ => x) ∧
    (0 < (led_task_green_iter s t).2.delay_ms →
      (led_task_green_iter s t).2.trace
        = t.trace ++ (if s.xQueueBtn2.items = [] then [Ev.block 10] else []) ++
          [Ev.put LED_PIN_G true, Ev.block (led_task_green_iter s t).2.delay_ms,
           Ev.put LED_PIN_G false, Ev.block (led_task_green_iter s t).2.delay_ms]) := by
  unfold led_task_green_iter xQueueReceive
  cases hq : s.xQueueBtn2.items with
  | nil =>
    by_cases hP : 0 < t.delay_ms
    · simp [hP]
    · simp [hP]
  | cons x rest =>
    by_cases hP : 0 < x
    · simp [hP]
    · simp [hP]

theorem risingEdges_cycles (pin : Nat) (P : Int) : ∀ (n : Nat) (now : Int),
    risingEdges pin (List.replicate n [Ev.block 10, Ev.put pin true, Ev.block P,
        Ev.put pin false, Ev.block P]).flatten false now
      = (List.range n).map (fun (i : Nat) => now + 10 + (i : Int) * (2 * P + 10)) := by
  intro n
  induction n with
  | zero => intro now; simp [risingEdges]
  | succ n ih =>
    intro now
    rw [List.replicate_succ, List.flatten_cons, List.range_succ_eq_map]
    simp only [List.cons_append, List.nil_append, risingEdges]
    simp only [List.append_eq, List.nil_append, if_true, Bool.not_false, Bool.and_self, Bool.not_true, Bool.and_false,
      Bool.false_eq_true, if_false, ih, List.map_cons, List.map_map, List.cons.injEq]
    refine ⟨by push_cast; ring, List.map_congr_left ?_⟩
    intro i _
    simp only [Function.comp, Nat.succ_eq_add_one]
    push_cast
    ring

theorem fallingEdges_cycles (pin : Nat) (P : Int) : ∀ (n : Nat) (now : Int),
    fallingEdges pin (List.replicate n [Ev.block 10, Ev.put pin true, Ev.block P,
        Ev.put pin false, Ev.block P]).flatten false now
      = (List.range n).map (fun (i : Nat) => now + 10 + P + (i : Int) * (2 * P + 10)) := by
  intro n
  induction n with
  | zero => intro now; simp [fallingEdges]
  | succ n ih =>
    intro now
    rw [List.replicate_succ, List.flatten_cons, List.range_succ_eq_map]
    simp only [List.cons_append, List.nil_append, fallingEdges]
    simp only [List.append_eq, List.nil_append, if_true, Bool.not_false, Bool.and_self, Bool.not_true, Bool.and_false,
      Bool.false_and, Bool.true_and, Bool.false_eq_true, if_false, ih, List.map_cons,
      List.map_map, List.cons.injEq]
    refine ⟨by push_cast; ring, List.map_congr_left ?_⟩
    intro i _
    simp only [Function.comp, Nat.succ_eq_add_one]
    push_cast
    ring

/-- C3, as the code has it.  Take a period `P > 0` held in `delay_ms` of an LED
task whose own queue is empty (and stays empty; the other channel may be in any
state).  Then `n` passes through the loop of that task leave the globals and
`delay_ms` alone and append `n` copies of: wait 10 (the receive that times out),
pin high, wait `P`, pin low, wait `P`.  Counting time from the start of the first of
these passes, the pin rises at `10 + i * (2P + 10)` and falls at
`10 + P + i * (2P + 10)`, `i = 0 .. n-1`: every cycle is `P` high and `P + 10` low,
and two consecutive rising edges are `2P + 10` apart.  Moreover, in any pass
whatever (queue empty or not) that ends with `delay_ms > 0`, the high wait and the
low wait both use that one final value of `delay_ms`, which is read from the queue
before the pin is driven high.  Stated for `led_task_red` and for `led_task_green`,
each under the condition on its own queue only. -/
theorem blink_timing (s : State) (t : LedTask) (P : Int) (n : Nat)
    (hP : 0 < P) (ht : t.delay_ms = P) :
    ((s.xQueueButId.items = [] →
      led_task_red_run n s t = (s, { t with trace := t.trace ++
        (List.replicate n [Ev.block 10, Ev.put LED_PIN_R true, Ev.block P,
          Ev.put LED_PIN_R false, Ev.block P]).flatten })) ∧
     risingEdges LED_PIN_R (List.replicate n [Ev.block 10, Ev.put LED_PIN_R true, Ev.block P,
          Ev.put LED_PIN_R false, Ev.block P]).flatten false 0
        = (List.range n).map (fun (i : Nat) => 10 + (i : Int) * (2 * P + 10)) ∧
     fallingEdges LED_PIN_R (List.replicate n [Ev.block 10, Ev.put LED_PIN_R true, Ev.block P,
          Ev.put LED_PIN_R false, Ev.block P]).flatten false 0
        = (List.range n).map (fun (i : Nat) => 10 + P + (i : Int) * (2 * P + 10)) ∧
     ∀ (s2 : State) (t2 : LedTask), 0 < (led_task_red_iter s2 t2).2.delay_ms →
      (led_task_red_iter s2 t2).2.trace
        = t2.trace ++ (if s2.xQueueButId.items = [] then [Ev.block 10] else []) ++
          [Ev.put LED_PIN_R true, Ev.block (led_task_red_iter s2 t2).2.delay_ms,
           Ev.put LED_PIN_R false, Ev.block (led_task_red_iter s2 t2).2.delay_ms]) ∧
    ((s.xQueueBtn2.items = [] →
      led_task_green_run n s t = (s, { t with trace := t.trace ++
        (List.replicate n [Ev.block 10, Ev.put LED_PIN_G true, Ev.block P,
          Ev.put LED_PIN_G false, Ev.block P]).flatten })) ∧
     risingEdges LED_PIN_G (List.replicate n [Ev.block 10, Ev.put LED_PIN_G true, Ev.block P,
          Ev.put LED_PIN_G false, Ev.block P]).flatten false 0
        = (List.range n).map (fun (i : Nat) => 10 + (i : Int) * (2 * P + 10)) ∧
     fallingEdges LED_PIN_G (List.replicate n [Ev.block 10, Ev.put LED_PIN_G true, Ev.block P,
          Ev.put LED_PIN_G false, Ev.block P]).flatten false 0
        = (List.range n).map (fun (i : Nat) => 10 + P + (i : Int) * (2 * P + 10)) ∧
     ∀ (s2 : State) (t2 : LedTask), 0 < (led_task_green_iter s2 t2).2.delay_ms →
      (led_task_green_iter s2 t2).2.trace
        = t2.trace ++ (if s2.xQueueBtn2.items = [] then [Ev.block 10] else []) ++
          [Ev.put LED_PIN_G true, Ev.block (led_task_green_iter s2 t2).2.delay_ms,
           Ev.put LED_PIN_G false, Ev.block (led_task_green_iter s2 t2).2.delay_ms]) := by
  subst ht
  refine ⟨⟨fun hr => led_task_red_run_empty n s t hr hP, ?_, ?_, ?_⟩,
    fun hg => led_task_green_run_empty n s t hg hP, ?_, ?_, ?_⟩
  · rw [risingEdges_cycles]; simp
  · rw [fallingEdges_cycles]; simp
  · intro s2 t2; exact (led_task_red_iter_pulse s2 t2).2
  · rw [risingEdges_cycles]; simp
  · rw [fallingEdges_cycles]; simp
  · intro s2 t2; exact (led_task_green_iter_pulse s2 t2).2

/-- Two passes of `led_task_red` with `delay_ms = 100` and the R queue empty, while
the G queue holds an entry: the trace, and the red LED rising at 10 and 220 and
falling at 110 and 320. -/
theorem blink_timing_witness :
    (led_task_red_run 2
        { next_delay_r := 0, next_delay_g := 700, xQueueButId := xQueueCreate 32,
          xQueueBtn2 := { uxLength := 32, items := [700] } }
        { delay_ms := 100, trace := [] }).2.trace
      = [Ev.block 10, Ev.put LED_PIN_R true, Ev.block 100, Ev.put LED_PIN_R false, Ev.block 100,
         Ev.block 10, Ev.put LED_PIN_R true, Ev.block 100, Ev.put LED_PIN_R false, Ev.block 100] ∧
    risingEdges LED_PIN_R (List.replicate 2 [Ev.block 10, Ev.put LED_PIN_R true, Ev.block 100,
          Ev.put LED_PIN_R false, Ev.block 100]).flatten false 0 = [10, 220] ∧
    fallingEdges LED_PIN_R (List.replicate 2 [Ev.block 10, Ev.put LED_PIN_R true, Ev.block 100,
          Ev.put LED_PIN_R false, Ev.block 100]).flatten false 0 = [110, 320] :=
  ⟨congrArg (fun r => r.2.trace)
      ((blink_timing
        { next_delay_r := 0, next_delay_g := 700, xQueueButId := xQueueCreate 32,
          xQueueBtn2 := { uxLength := 32, items := [700] } }
        { delay_ms := 100, trace := [] } 100 2 (by decide) rfl).1.1 rfl),
    (blink_timing main_init { delay_ms := 100, trace := [] } 100 2 (by decide) rfl).1.2.1,
    (blink_timing main_init { delay_ms := 100, trace := [] } 100 2 (by decide) rfl).1.2.2.1⟩

/-- With `delay_ms = 100` and the queues empty, two passes of `led_task_red` raise the
red LED at times 10 and 220 and lower it at 110 and 320: consecutive rising edges
are 210 apart, not `2 * 100`, and the LED is low for 110, not 100. -/
theorem blink_period_counterexample :
    risingEdges LED_PIN_R
        (led_task_red_run 2 main_init { delay_ms := 100, trace := [] }).2.trace false 0
      = [10, 220] ∧
    fallingEdges LED_PIN_R
        (led_task_red_run 2 main_init { delay_ms := 100, trace := [] }).2.trace false 0
      = [110, 320] ∧
    gaps (risingEdges LED_PIN_R
        (led_task_red_run 2 main_init { delay_ms := 100, trace := [] }).2.trace false 0)
      ≠ [2 * 100] := by
  refine ⟨by decide, by decide, by decide⟩

end Exe4

/-! ## Variant B: the LED task -/

theorem lastPut_append_block (pin : Nat) (ms : Int) : ∀ (tr : List Ev),
    lastPut pin (tr ++ [Ev.block ms]) = lastPut pin tr := by
  intro tr
  induction tr with
  | nil => rfl
  | cons e tr ih =>
    cases e with
    | put p v => simp only [List.cons_append, lastPut, List.append_eq, ih]
    | block m => simp only [List.cons_append, lastPut, List.append_eq, ih]

theorem lastPut_append_put (pin : Nat) (v : Bool) : ∀ (tr : List Ev),
    lastPut pin (tr ++ [Ev.put pin v]) = some v := by
  intro tr
  induction tr with
  | nil => simp [lastPut]
  | cons e tr ih =>
    cases e with
    | put p w => simp only [List.cons_append, lastPut, List.append_eq, ih]
    | block m => simp only [List.cons_append, lastPut, List.append_eq, ih]

theorem lastPut_append_block_put (pin : Nat) (ms : Int) (v : Bool) (tr : List Ev) :
    lastPut pin (tr ++ [Ev.block ms, Ev.put pin v]) = some v := by
  have h : tr ++ [Ev.block ms, Ev.put pin v] = (tr ++ [Ev.block ms]) ++ [Ev.put pin v] := by
    simp
  rw [h, lastPut_append_put]

namespace Exe5

theorem led_task_run_cons (led_pin : Nat) (t : LedTask) (b : Bool) (bs : List Bool) :
    led_task_run led_pin t (b :: bs) = led_task_run led_pin (led_task_iter led_pin b t).2 bs := rfl

theorem led_task_iter_ativo (led_pin : Nat) (b : Bool) (t : LedTask) :
    (led_task_iter led_pin b t).2.ativo = xor t.ativo b := by
  unfold led_task_iter xSemaphoreTake
  cases b <;> cases h : t.ativo <;> simp [h]

theorem led_task_run_ativo (led_pin : Nat) : ∀ (takes : List Bool) (t : LedTask),
    (led_task_run led_pin t takes).ativo = xor t.ativo (decide (takes.count true % 2 = 1)) := by
  intro takes
  induction takes with
  | nil => intro t; simp [led_task_run]
  | cons b bs ih =>
    intro t
    rw [led_task_run_cons, ih, led_task_iter_ativo]
    cases b with
    | false => simp
    | true =>
      have h : List.count true (true :: bs) = List.count true bs + 1 := by simp
      rw [h]
      by_cases hc : List.count true bs % 2 = 1
      · have h2 : ¬ (List.count true bs + 1) % 2 = 1 := by omega
        simp [hc, h2]
      · have h2 : (List.count true bs + 1) % 2 = 1 := by omega
        simp [hc, h2]

/-- C2. Variant B toggle parity.  Start `led_task` (on any pin) in its initial state
and let it make any finite sequence of passes through its loop, each either taking
the semaphore (`true`) or timing out (`false`).  Then `ativo` is true exactly when
the number of passes that took the semaphore is odd, however many timeouts are
interleaved. -/
theorem toggle_parity (led_pin : Nat) (takes : List Bool) :
    (led_task_run led_pin (LedTask.start led_pin) takes).ativo = true
      ↔ Odd (takes.count true) := by
  rw [led_task_run_ativo, Nat.odd_iff]
  simp [LedTask.start]

theorem ledInv_start (led_pin : Nat) : LedInv led_pin (LedTask.start led_pin) := by
  simp [LedInv, LedTask.start, lastPut]

theorem ledInv_iter (led_pin : Nat) (b : Bool) (t : LedTask) (h : LedInv led_pin t) :
    LedInv led_pin (led_task_iter led_pin b t).2 := by
  obtain ⟨h1, h2⟩ := h
  unfold led_task_iter xSemaphoreTake LedInv
  cases b <;> cases ha : t.ativo
  · simpa [ha, lastPut_append_block] using ⟨h1, h2 ha⟩
  · simp [ha, lastPut_append_block_put]
  · simpa [ha] using h1
  · simp [ha, lastPut_append_put]

theorem ledInv_run (led_pin : Nat) : ∀ (takes : List Bool) (t : LedTask),
    LedInv led_pin t → LedInv led_pin (led_task_run led_pin t takes) := by
  intro takes
  induction takes with
  | nil => intro t h; exact h
  | cons b bs ih =>
    intro t h
    rw [led_task_run_cons]
    exact ih _ (ledInv_iter led_pin b t h)

/-- C5. Variant B never leaves the output on while inactive.  In every state that
`led_task` reaches from its initial state (pin driven low, `ativo = false`,
`level = false`) by any sequence of passes that take the semaphore or time out,
the last value written to the LED pin is `level`, and `ativo = false` implies
`level = false`, so that the last value written to the pin is 0.  And a pass that
takes the semaphore while `ativo = true` sets `ativo = false`, `level = false` and
writes 0 to the pin in that same pass, whatever `level` was. -/
theorem never_on_while_inactive (led_pin : Nat) (takes : List Bool) :
    (lastPut led_pin (led_task_run led_pin (LedTask.start led_pin) takes).trace
        = some (led_task_run led_pin (LedTask.start led_pin) takes).level ∧
     ((led_task_run led_pin (LedTask.start led_pin) takes).ativo = false →
        (led_task_run led_pin (LedTask.start led_pin) takes).level = false ∧
        lastPut led_pin (led_task_run led_pin (LedTask.start led_pin) takes).trace
          = some false)) ∧
    (∀ t : LedTask, t.ativo = true →
      (led_task_iter led_pin true t).2
        = { ativo := false, level := false, trace := t.trace ++ [Ev.put led_pin false] }) := by
  obtain ⟨h1, h2⟩ := ledInv_run led_pin takes _ (ledInv_start led_pin)
  refine ⟨⟨h1, fun ha => ⟨h2 ha, by rw [h1, h2 ha]⟩⟩, ?_⟩
  intro t ht
  simp [led_task_iter, xSemaphoreTake, ht]

/-- Blinking is switched on, the LED goes high on a timeout, and the next signal
switches blinking off: the pin is written 0 and the task is inactive with `level`
false; the pass that deactivates, run on the active state with `level = true`,
appends exactly the write of 0. -/
theorem never_on_while_inactive_witness :
    lastPut 5 (led_task_run 5 (LedTask.start 5) [true, false, true]).trace = some false ∧
    (led_task_run 5 (LedTask.start 5) [true, false, true]).level = false ∧
    (led_task_iter 5 true { ativo := true, level := true, trace := [] }).2
      = { ativo := false, level := false, trace := [Ev.put 5 false] } :=
  ⟨((never_on_while_inactive 5 [true, false, true]).1.2 rfl).2,
   ((never_on_while_inactive 5 [true, false, true]).1.2 rfl).1,
   (never_on_while_inactive 5 [true, false, true]).2
     { ativo := true, level := true, trace := [] } rfl⟩

theorem led_task_iter_timeout_ativo (led_pin : Nat) (t : LedTask) (h : t.ativo = true) :
    (led_task_iter led_pin false t).2
      = { t with level := !t.level,
                 trace := t.trace ++ [Ev.block 100, Ev.put led_pin (!t.level)] } := by
  simp [led_task_iter, xSemaphoreTake, h]

/-- C6. Variant B steady blink.  From any state of `led_task` with `ativo = true`
and `level = L`, after `n` consecutive passes that time out, `ativo` is still true,
`level` is `L` when `n` is even and `not L` when `n` is odd, and the trace has grown
by `n` copies of: wait 100 (the take that times out), then write the new level to
the LED pin, the levels written being `not L`, `L`, `not L`, ... -/
theorem steady_blink (led_pin : Nat) (n : Nat) : ∀ (t : LedTask), t.ativo = true →
    (led_task_run led_pin t (List.replicate n false)).ativo = true ∧
    (led_task_run led_pin t (List.replicate n false)).level
      = (if n % 2 = 0 then t.level else !t.level) ∧
    (led_task_run led_pin t (List.replicate n false)).trace
      = t.trace ++ ((List.range n).map (fun i =>
          [Ev.block 100, Ev.put led_pin (if i % 2 = 0 then !t.level else t.level)])).flatten := by
  induction n with
  | zero => intro t h; simp [led_task_run, h]
  | succ n ih =>
    intro t h
    rw [List.replicate_succ, led_task_run_cons, led_task_iter_timeout_ativo led_pin t h]
    obtain ⟨h1, h2, h3⟩ := ih
      { ativo := t.ativo, level := !t.level,
        trace := t.trace ++ [Ev.block 100, Ev.put led_pin (!t.level)] } h
    refine ⟨h1, ?_, ?_⟩
    · rw [h2]
      rcases Nat.mod_two_eq_zero_or_one n with hn | hn
      · have hn1 : (n + 1) % 2 = 1 := by omega
        simp [hn, hn1]
      · have hn1 : (n + 1) % 2 = 0 := by omega
        simp [hn, hn1]
    · rw [h3, List.range_succ_eq_map]
      simp only [List.map_cons, List.flatten_cons, List.map_map, List.append_assoc,
        Nat.zero_mod, if_true]
      congr 2
      apply congrArg
      apply List.map_congr_left
      intro i _
      simp only [Function.comp, Nat.succ_eq_add_one, Bool.not_not]
      rcases Nat.mod_two_eq_zero_or_one i with hi | hi
      · have hi1 : (i + 1) % 2 = 1 := by omega
        simp [hi, hi1]
      · have hi1 : (i + 1) % 2 = 0 := by omega
        simp [hi, hi1]

/-- Three timeouts from an active state with the LED low: the task is still active,
the level is high, and the pin was written 1, 0, 1 with a wait of 100 before each. -/
theorem steady_blink_witness :
    (led_task_run 5 { ativo := true, level := false, trace := [] }
        (List.replicate 3 false)).ativo = true ∧
    (led_task_run 5 { ativo := true, level := false, trace := [] }
        (List.replicate 3 false)).level = true ∧
    (led_task_run 5 { ativo := true, level := false, trace := [] }
        (List.replicate 3 false)).trace
      = [Ev.block 100, Ev.put 5 true, Ev.block 100, Ev.put 5 false,
         Ev.block 100, Ev.put 5 true] :=
  steady_blink 5 3 { ativo := true, level := false, trace := [] } rfl

/-! ## Variant B: routing -/

theorem btn_callback_tag_R (fall : Nat) (s : State) (e : Nat) (he : e &&& fall ≠ 0) :
    btn_callback fall s BTN_PIN_R e
      = { s with xQueueBtn := (xQueueSendFromISR s.xQueueBtn 'R'.toNat).2 } := by
  simp [btn_callback, he]

theorem btn_callback_tag_Y (fall : Nat) (s : State) (e : Nat) (he : e &&& fall ≠ 0) :
    btn_callback fall s BTN_PIN_Y e
      = { s with xQueueBtn := (xQueueSendFromISR s.xQueueBtn 'Y'.toNat).2 } := by
  simp [btn_callback, he, BTN_PIN_Y, BTN_PIN_R]

theorem btn_task_iter_cons (s : State) (c : Nat) (rest : List Nat)
    (h : s.xQueueBtn.items = c :: rest) :
    btn_task_iter s =
      if c = 'R'.toNat then
        { xQueueBtn := { s.xQueueBtn with items := rest }, xSemaphoreLedR := true,
          xSemaphoreLedY := s.xSemaphoreLedY }
      else if c = 'Y'.toNat then
        { xQueueBtn := { s.xQueueBtn with items := rest }, xSemaphoreLedR := s.xSemaphoreLedR,
          xSemaphoreLedY := true }
      else
        { s with xQueueBtn := { s.xQueueBtn with items := rest } } := by
  unfold btn_task_iter xQueueReceive xSemaphoreGive
  simp only [h]

/-- C9. Variant B routing and saturation.  A falling edge on `BTN_PIN_R` submits the
tag `'R'` to the queue and one on `BTN_PIN_Y` the tag `'Y'` (appended at the back
when the queue has room).  When `btn_task` dequeues `'R'` it makes `xSemaphoreLedR`
available and leaves `xSemaphoreLedY` as it was; symmetrically for `'Y'`; any other
tag changes neither semaphore.  The semaphores are created empty, and dispatching
the same tag twice in a row, with no take in between, leaves the two semaphores as
dispatching it once does. -/
theorem routing_saturation (fall e : Nat) (he : e &&& fall ≠ 0) (s : State) :
    (btn_callback fall s BTN_PIN_R e
        = { s with xQueueBtn := (xQueueSendFromISR s.xQueueBtn 'R'.toNat).2 } ∧
     btn_callback fall s BTN_PIN_Y e
        = { s with xQueueBtn := (xQueueSendFromISR s.xQueueBtn 'Y'.toNat).2 } ∧
     (s.xQueueBtn.items.length < s.xQueueBtn.uxLength →
        (btn_callback fall s BTN_PIN_R e).xQueueBtn.items = s.xQueueBtn.items ++ ['R'.toNat] ∧
        (btn_callback fall s BTN_PIN_Y e).xQueueBtn.items = s.xQueueBtn.items ++ ['Y'.toNat])) ∧
    (∀ rest, s.xQueueBtn.items = 'R'.toNat :: rest →
      btn_task_iter s = { xQueueBtn := { s.xQueueBtn with items := rest },
                          xSemaphoreLedR := true, xSemaphoreLedY := s.xSemaphoreLedY }) ∧
    (∀ rest, s.xQueueBtn.items = 'Y'.toNat :: rest →
      btn_task_iter s = { xQueueBtn := { s.xQueueBtn with items := rest },
                          xSemaphoreLedR := s.xSemaphoreLedR, xSemaphoreLedY := true }) ∧
    (∀ c rest, c ≠ 'R'.toNat → c ≠ 'Y'.toNat → s.xQueueBtn.items = c :: rest →
      btn_task_iter s = { s with xQueueBtn := { s.xQueueBtn with items := rest } }) ∧
    (main_init.xSemaphoreLedR = false ∧ main_init.xSemaphoreLedY = false) ∧
    (∀ c rest, s.xQueueBtn.items = c :: c :: rest →
      (btn_task_iter (btn_task_iter s)).xSemaphoreLedR = (btn_task_iter s).xSemaphoreLedR ∧
      (btn_task_iter (btn_task_iter s)).xSemaphoreLedY = (btn_task_iter s).xSemaphoreLedY) := by
  refine ⟨⟨btn_callback_tag_R fall s e he, btn_callback_tag_Y fall s e he, ?_⟩,
    ?_, ?_, ?_, ⟨rfl, rfl⟩, ?_⟩
  · intro hroom
    rw [btn_callback_tag_R fall s e he, btn_callback_tag_Y fall s e he]
    simp [xQueueSendFromISR, hroom]
  · intro rest h
    rw [btn_task_iter_cons s _ rest h, if_pos rfl]
  · intro rest h
    rw [btn_task_iter_cons s _ rest h, if_neg (by decide), if_pos rfl]
  · intro c rest hR hY h
    rw [btn_task_iter_cons s c rest h, if_neg hR, if_neg hY]
  · intro c rest h
    have h1 := btn_task_iter_cons s c (c :: rest) h
    have h2 : (btn_task_iter s).xQueueBtn.items = c :: rest := by
      rw [h1]; split_ifs <;> rfl
    rw [btn_task_iter_cons (btn_task_iter s) c rest h2, h1]
    split_ifs <;> exact ⟨rfl, rfl⟩

/-- From the state set up by `main` (falling-edge bit 4, events mask 4): two presses
on R put `'R'`, `'R'` in the queue; dispatching the first makes only the R semaphore
available, and dispatching the second changes neither semaphore. -/
theorem routing_saturation_witness :
    (btn_callback 4 (btn_callback 4 main_init BTN_PIN_R 4) BTN_PIN_R 4).xQueueBtn.items
      = ['R'.toNat, 'R'.toNat] ∧
    btn_task_iter (btn_callback 4 (btn_callback 4 main_init BTN_PIN_R 4) BTN_PIN_R 4)
      = { xQueueBtn := { uxLength := 16, items := ['R'.toNat] },
          xSemaphoreLedR := true, xSemaphoreLedY := false } ∧
    (btn_task_iter (btn_task_iter
        (btn_callback 4 (btn_callback 4 main_init BTN_PIN_R 4) BTN_PIN_R 4))).xSemaphoreLedR
      = true ∧
    (btn_task_iter (btn_task_iter
        (btn_callback 4 (btn_callback 4 main_init BTN_PIN_R 4) BTN_PIN_R 4))).xSemaphoreLedY
      = false :=
  ⟨((routing_saturation 4 4 (by decide) (btn_callback 4 main_init BTN_PIN_R 4)).1.2.2
      (by decide)).1,
   (routing_saturation 4 4 (by decide)
      (btn_callback 4 (btn_callback 4 main_init BTN_PIN_R 4) BTN_PIN_R 4)).2.1 _ rfl,
   ((routing_saturation 4 4 (by decide)
      (btn_callback 4 (btn_callback 4 main_init BTN_PIN_R 4) BTN_PIN_R 4)).2.2.2.2.2 _ _ rfl).1,
   ((routing_saturation 4 4 (by decide)
      (btn_callback 4 (btn_callback 4 main_init BTN_PIN_R 4) BTN_PIN_R 4)).2.2.2.2.2 _ _ rfl).2⟩

end Exe5

/-! ## Both variants: what the interrupt handler filters out, and a full queue -/

theorem exe5_btn_callback_full (fall e : Nat) (s : Exe5.State) ( gpio : Nat)
    (h : s.xQueueBtn.uxLength ≤ s.xQueueBtn.items.length) :
    Exe5.btn_callback fall s gpio e = s := by
  unfold Exe5.btn_callback
  split_ifs <;> simp only [xQueueSendFromISR_full _ _ h]

/-- C4. In both variants `btn_callback` does nothing unless the event is a falling
edge on a monitored pin: if the falling-edge bit is not set in `events`, or the pin
is neither of the two button pins, the whole state (the queues, and in variant A
`next_delay_r` and `next_delay_g`) is returned unchanged.  Consequently any run of
events none of which has the falling-edge bit set leaves the state as it was. -/
theorem btn_callback_filter (fall : Nat) ( gpio events : Nat)
    (sA : Exe4.State) (sB : Exe5.State) :
    ((events &&& fall = 0 ∨ ( gpio ≠ Exe4.BTN_PIN_R ∧ gpio ≠ Exe4.BTN_PIN_G)) →
      Exe4.btn_callback fall sA gpio events = sA) ∧
    ((events &&& fall = 0 ∨ ( gpio ≠ Exe5.BTN_PIN_R ∧ gpio ≠ Exe5.BTN_PIN_Y)) →
      Exe5.btn_callback fall sB gpio events = sB) ∧
    (∀ es : List (Nat × Nat), (∀ x ∈ es, x.2 &&& fall = 0) →
      Exe4.irqs fall sA es = sA ∧ Exe5.irqs fall sB es = sB) := by
  refine ⟨?_, ?_, ?_⟩
  · rintro (h | ⟨h1, h2⟩)
    · simp [Exe4.btn_callback, h]
    · simp [Exe4.btn_callback, h1, h2]
  · rintro (h | ⟨h1, h2⟩)
    · simp [Exe5.btn_callback, h]
    · simp [Exe5.btn_callback, h1, h2]
  · intro es
    induction es with
    | nil => intro _; exact ⟨rfl, rfl⟩
    | cons x es ih =>
      intro hall
      have hx : x.2 &&& fall = 0 := hall x (List.mem_cons_self _ _)
      have hA : Exe4.btn_callback fall sA x.1 x.2 = sA := by simp [Exe4.btn_callback, hx]
      have hB : Exe5.btn_callback fall sB x.1 x.2 = sB := by simp [Exe5.btn_callback, hx]
      have h := ih (fun y hy => hall y (List.mem_cons_of_mem _ hy))
      constructor
      · show Exe4.irqs fall (Exe4.btn_callback fall sA x.1 x.2) es = sA
        rw [hA]; exact h.1
      · show Exe5.irqs fall (Exe5.btn_callback fall sB x.1 x.2) es = sB
        rw [hB]; exact h.2

/-- With falling-edge bit 4: an event with only bit 8 set on button pin 28 changes
nothing in either variant, a falling edge on pin 7 changes nothing, and neither
does a run of three events without the falling-edge bit. -/
theorem btn_callback_filter_witness :
    Exe4.btn_callback 4 Exe4.main_init 28 8 = Exe4.main_init ∧
    Exe5.btn_callback 4 Exe5.main_init 28 8 = Exe5.main_init ∧
    Exe4.btn_callback 4 Exe4.main_init 7 4 = Exe4.main_init ∧
    Exe5.btn_callback 4 Exe5.main_init 7 4 = Exe5.main_init ∧
    Exe4.irqs 4 Exe4.main_init [(28, 8), (26, 8), (28, 8)] = Exe4.main_init ∧
    Exe5.irqs 4 Exe5.main_init [(28, 8), (21, 8), (28, 8)] = Exe5.main_init :=
  ⟨(btn_callback_filter 4 28 8 Exe4.main_init Exe5.main_init).1 (Or.inl (by decide)),
   (btn_callback_filter 4 28 8 Exe4.main_init Exe5.main_init).2.1 (Or.inl (by decide)),
   (btn_callback_filter 4 7 4 Exe4.main_init Exe5.main_init).1
     (Or.inr ⟨by decide, by decide⟩),
   (btn_callback_filter 4 7 4 Exe4.main_init Exe5.main_init).2.1
     (Or.inr ⟨by decide, by decide⟩),
   ((btn_callback_filter 4 28 8 Exe4.main_init Exe5.main_init).2.2
     [(28, 8), (26, 8), (28, 8)] (by decide)).1,
   ((btn_callback_filter 4 28 8 Exe4.main_init Exe5.main_init).2.2
     [(28, 8), (21, 8), (28, 8)] (by decide)).2⟩

/-- C8. Queue overflow is a silent drop in both variants.  Let `e` be an events mask
with the falling-edge bit set.  Variant A: when the queue of a channel has capacity
32 and holds 32 entries, `btn_callback` on the button of that channel returns the
state with that queue (and the other queue and the other counter) exactly as
before; only the ramp counter of the channel has moved.  Variant B: when
`xQueueBtn` has capacity 16 and holds 16 entries, `btn_callback` on either button
returns the state unchanged.  The handler is a total function with no error
result, and the dropped value is kept nowhere in the queues. -/
theorem queue_full_drop (fall e : Nat) (he : e &&& fall ≠ 0)
    (sA : Exe4.State) (sB : Exe5.State) :
    (sA.xQueueButId.uxLength = 32 → sA.xQueueButId.items.length = 32 →
      (Exe4.btn_callback fall sA Exe4.BTN_PIN_R e).xQueueButId = sA.xQueueButId ∧
      Exe4.btn_callback fall sA Exe4.BTN_PIN_R e
        = { sA with next_delay_r := (Exe4.bump_delay sA.next_delay_r).1 }) ∧
    (sA.xQueueBtn2.uxLength = 32 → sA.xQueueBtn2.items.length = 32 →
      (Exe4.btn_callback fall sA Exe4.BTN_PIN_G e).xQueueBtn2 = sA.xQueueBtn2 ∧
      Exe4.btn_callback fall sA Exe4.BTN_PIN_G e
        = { sA with next_delay_g := (Exe4.bump_delay sA.next_delay_g).1 }) ∧
    (sB.xQueueBtn.uxLength = 16 → sB.xQueueBtn.items.length = 16 →
      Exe5.btn_callback fall sB Exe5.BTN_PIN_R e = sB ∧
      Exe5.btn_callback fall sB Exe5.BTN_PIN_Y e = sB) := by
  refine ⟨?_, ?_, ?_⟩
  · intro h1 h2
    have hfull : sA.xQueueButId.uxLength ≤ sA.xQueueButId.items.length := by omega
    rw [Exe4.btn_callback_fall_R fall sA e he, xQueueSendFromISR_full _ _ hfull]
    exact ⟨rfl, rfl⟩
  · intro h1 h2
    have hfull : sA.xQueueBtn2.uxLength ≤ sA.xQueueBtn2.items.length := by omega
    rw [Exe4.btn_callback_fall_G fall sA e he, xQueueSendFromISR_full _ _ hfull]
    exact ⟨rfl, rfl⟩
  · intro h1 h2
    have hfull : sB.xQueueBtn.uxLength ≤ sB.xQueueBtn.items.length := by omega
    exact ⟨exe5_btn_callback_full fall e sB _ hfull, exe5_btn_callback_full fall e sB _ hfull⟩

/-- With falling-edge bit 4 and events mask 4: a press on R in variant A against a
queue holding 32 entries leaves the queue as it was and moves the counter from 200
to 300; a press on R in variant B against a queue holding 16 tags changes nothing. -/
theorem queue_full_drop_witness :
    Exe4.btn_callback 4
        { next_delay_r := 200, next_delay_g := 0,
          xQueueButId := { uxLength := 32, items := List.replicate 32 100 },
          xQueueBtn2 := { uxLength := 32, items := [] } } Exe4.BTN_PIN_R 4
      = { next_delay_r := 300, next_delay_g := 0,
          xQueueButId := { uxLength := 32, items := List.replicate 32 100 },
          xQueueBtn2 := { uxLength := 32, items := [] } } ∧
    Exe5.btn_callback 4
        { xQueueBtn := { uxLength := 16, items := List.replicate 16 82 },
          xSemaphoreLedR := false, xSemaphoreLedY := false } Exe5.BTN_PIN_R 4
      = { xQueueBtn := { uxLength := 16, items := List.replicate 16 82 },
          xSemaphoreLedR := false, xSemaphoreLedY := false } :=
  ⟨((queue_full_drop 4 4 (by decide)
      { next_delay_r := 200, next_delay_g := 0,
        xQueueButId := { uxLength := 32, items := List.replicate 32 100 },
        xQueueBtn2 := { uxLength := 32, items := [] } }
      { xQueueBtn := { uxLength := 16, items := List.replicate 16 82 },
        xSemaphoreLedR := false, xSemaphoreLedY := false }).1 rfl rfl).2,
   ((queue_full_drop 4 4 (by decide)
      { next_delay_r := 200, next_delay_g := 0,
        xQueueButId := { uxLength := 32, items := List.replicate 32 100 },
        xQueueBtn2 := { uxLength := 32, items := [] } }
      { xQueueBtn := { uxLength := 16, items := List.replicate 16 82 },
        xSemaphoreLedR := false, xSemaphoreLedY := false }).2.2 rfl rfl).1⟩
